import Mathlib

/-!
Verification development for the `compas_rcf` repository.

The development shallowly embeds the Python sources:

* `rcf/ur/clay_shooting.py` — UR motion-script synthesis (picking, shooting,
  pushing and safe-travel choreographies);
* `rcf/ur/comm.py` — command-channel socket client and real-time telemetry
  decoder;
* `src/compas_rcf/abb_runner.py` — the chunked ("triple") ABB fabrication
  runner;
* `src/compas_rcf/abb/run.py` — the per-unit ABB fabrication runner.

Geometry (`Rhino.Geometry` planes and vectors) is embedded as a term algebra:
the sources only ever clone, translate and rotate planes and read their
origin/normal, so a plane is represented by the tree of operations that
produced it.  Angles are radian measures recorded as rational multiples of pi
(`radians d = d / 180`, i.e. the coefficient of pi produced by
`math.radians(d)`).  Robot commands are embedded as an abstract command type
(one constructor per `ur_standard` emitter, following the spec's
MotionCommand intermediate representation, since `ur_standard.py` is not part
of the sources).  Raised Python exceptions are embedded as explicit error
values.
-/

namespace RCF

/-- `math.radians(d)` : the radian measure of `d` degrees, recorded as a
rational multiple of pi (so `radians d = d / 180` stands for `d·π/180`). -/
def radians (d : ℚ) : ℚ := d / 180

/-- Symbolic 3d vectors: the vector expressions the source builds.
`world x y z` is `rg.Vector3d(x, y, z)`; `normalOf b` is the normal of the
caller-supplied base plane `b`; `smul c v` is scalar multiplication
(`v * c` in Rhino); `rot a ax v` is `v` rotated by angle `a` about axis
`ax` (used for normals of rotated planes). -/
inductive Vec : Type
  | world (x y z : ℚ)
  | normalOf (b : ℕ)
  | smul (c : ℚ) (v : Vec)
  | rot (angle : ℚ) (axis : Vec) (v : Vec)
  deriving DecidableEq, Repr

/-- Symbolic 3d points. `originOf b` is the origin of the caller-supplied
base plane `b`; `add v p` is `p` translated by `v`; `rotPt a ax c p` is `p`
rotated by angle `a` about axis `ax` anchored at `c`. -/
inductive Pt : Type
  | originOf (b : ℕ)
  | add (v : Vec) (p : Pt)
  | rotPt (angle : ℚ) (axis : Vec) (center : Pt) (p : Pt)
  deriving DecidableEq, Repr

/-- Symbolic planes: a caller-supplied base plane (`Plane.base b`, opaque,
identified by an index) together with the rigid-body operations the source
applies.  `rg.Plane.Clone()` is value copying, which the functional embedding
makes implicit. -/
inductive Plane : Type
  | base (b : ℕ)
  | translate (v : Vec) (p : Plane)
  | rotate (angle : ℚ) (axis : Vec) (center : Pt) (p : Plane)
  deriving DecidableEq, Repr

/-- `plane.Normal` : translation preserves the normal, rotation rotates it. -/
def Plane.Normal : Plane → Vec
  | .base b => Vec.normalOf b
  | .translate _ p => p.Normal
  | .rotate a ax _ p => Vec.rot a ax p.Normal

/-- `plane.Origin` : translation shifts the origin, rotation rotates it
about the anchor point. -/
def Plane.Origin : Plane → Pt
  | .base b => Pt.originOf b
  | .translate v p => Pt.add v p.Origin
  | .rotate a ax c p => Pt.rotPt a ax c p.Origin

/-- Modelled from the spec: the `ur_standard` module is not among the
sources, so its emitters are modelled as constructors of the spec's
MotionCommand intermediate representation (§3 Data Model: MoveLinear,
MoveJoint, SetDigitalOut, Sleep, SetToolFrame, LogMessage); each emitter
call contributes exactly one command. `moveJPose` is `move_j_pose` (a
joint-space move towards a plane target, used for safe-travel waypoints). -/
inductive Cmd : Type
  | moveL (p : Plane) (speed accel blend : ℚ)
  | moveJ (joints : List ℚ) (accel speed : ℚ)
  | moveJPose (p : Plane) (speed accel : ℚ)
  | setDigitalOut (io : ℕ) (state : Bool)
  | sleepCmd (secs : ℚ)
  | setTcp (x y z rx ry rz : ℚ)
  | urLog (msg : String)
  deriving DecidableEq, Repr

-- Module constants of rcf/ur/clay_shooting.py
def ROBOT_L_SPEED : ℚ := 6 / 10
def ROBOT_ACCEL : ℚ := 8 / 10
def ROBOT_SAFE_SPEED : ℚ := 8 / 10
def ROBOT_J_SPEED : ℚ := 8 / 10
def BLEND_RADIUS_PUSHING : ℚ := 2 / 1000
def TOOL_HEIGHT : ℚ := 192
def ACTUATOR_IO : ℕ := 4

/-- Modelled from the spec: `ur_standard.move_l` emits one MoveLinear. -/
def move_l (p : Plane) (speed accel blend : ℚ) : List Cmd :=
  [Cmd.moveL p speed accel blend]

/-- Modelled from the spec: `ur_standard.move_j` emits one MoveJoint
(argument order as at the call sites: configuration, acceleration, speed). -/
def move_j (joints : List ℚ) (accel speed : ℚ) : List Cmd :=
  [Cmd.moveJ joints accel speed]

/-- Modelled from the spec: `ur_standard.move_j_pose` emits one joint-space
move towards a plane target. -/
def move_j_pose (p : Plane) (speed accel : ℚ) : List Cmd :=
  [Cmd.moveJPose p speed accel]

/-- Modelled from the spec: `ur_standard.set_digital_out` emits one
SetDigitalOut. -/
def set_digital_out (io : ℕ) (state : Bool) : List Cmd :=
  [Cmd.setDigitalOut io state]

/-- Modelled from the spec: `ur_standard.sleep` emits one Sleep. -/
def sleepUR (secs : ℚ) : List Cmd :=
  [Cmd.sleepCmd secs]

/-- Modelled from the spec: `ur_standard.set_tcp_by_plane_angles` emits one
SetToolFrame. -/
def set_tcp_by_plane_angles (x y z rx ry rz : ℚ) : List Cmd :=
  [Cmd.setTcp x y z rx ry rz]

/-- Modelled from the spec: `ur_standard.UR_log` emits one LogMessage. -/
def UR_log (msg : String) : List Cmd :=
  [Cmd.urLog msg]

/-- Errors the Python script synthesis can raise. `configMismatch` is the
`Exception('Mismatched between ...')` of the per-run configuration length
check; `runtimeError` stands for the dynamic errors (KeyError /
ZeroDivisionError / TypeError) of malformed configuration dictionaries. -/
inductive PyError : Type
  | configMismatch
  | runtimeError
  deriving DecidableEq, Repr

/-- `_get_offset_plane(initial_plane, dist, vertical_offset_bool)` of
clay_shooting.py: entry and exit planes offset from the initial plane. -/
def _get_offset_plane (initial : Plane) (dist : ℚ) (vertical : Bool) :
    Plane × Plane :=
  let plane_normal := initial.Normal
  let dir0 := if vertical then Vec.world 0 0 (-1) else plane_normal
  let dir1 := if vertical then plane_normal else plane_normal
  (Plane.translate (Vec.smul dist dir0) initial,
   Plane.translate (Vec.smul dist dir1) initial)

/-- `_default_movel(plane, blend_radius=0)`; the Python default argument
`blend_radius=0` is passed explicitly at call sites here. -/
def _default_movel (p : Plane) (blend : ℚ) : List Cmd :=
  move_l p ROBOT_L_SPEED ROBOT_ACCEL blend

/-- The per-plane push configuration dictionary (`plane_push_conf` in
clay_shooting.py).  A field holding `none` models the Python value `None`
(all five keys are taken to be present; the default per-run configuration
only carries `pushing`, whose absence from the remaining keys behaves like
`None` for every code path exercised here). -/
structure PlanePushConf : Type where
  pushing : Option Bool
  n_pushes : Option ℕ
  push_offsets : Option ℚ
  angle_steps : Option ℚ
  push_rotation_axis : Option Vec
  deriving DecidableEq, Repr

/-- Python truthiness of an `Option Bool` (`None` and `False` are falsy). -/
def truthy : Option Bool → Bool
  | some true => true
  | _ => false

/-- `_push_moves(plane, push_conf, vertical_offset_bool)`: `n_pushes` linear
moves towards copies of the retracted offset plane rotated about the base
plane's origin by cumulative angles; a missing (`None`) configuration value
raises (`range(None)` / arithmetic on `None`). -/
def _push_moves (plane : Plane) (pc : PlanePushConf) (vertical : Bool) :
    Except PyError (List Cmd) :=
  match pc.n_pushes, pc.push_offsets, pc.angle_steps, pc.push_rotation_axis with
  | some n, some dist, some angle_step, some rot_axis =>
      let direction := if vertical then Vec.world 0 0 (-1) else plane.Normal
      let offset_plane := Plane.translate (Vec.smul (-dist) direction) plane
      Except.ok <|
        (List.range n).flatMap fun i =>
          _default_movel
            (Plane.rotate (radians ((i + 1 : ℕ) * angle_step)) rot_axis
              plane.Origin offset_plane)
            BLEND_RADIUS_PUSHING
  | _, _, _, _ => Except.error PyError.runtimeError

/-- `_picking_moves(plane, entry_exit_offset, rotation, vertical_offset_bool)`:
entry, contact, optional rotated contact, exit.  The two-argument Rhino
`Rotate(angle, axis)` pivots about the plane's own origin. -/
def _picking_moves (plane : Plane) (entry_exit_offset rotation : ℚ)
    (vertical : Bool) : List Cmd :=
  let ee := _get_offset_plane plane entry_exit_offset vertical
  _default_movel ee.1 0 ++ _default_movel plane 0 ++
    (if 0 < rotation then
      _default_movel
        (Plane.rotate (radians rotation) plane.Normal plane.Origin plane) 0
    else []) ++
    _default_movel ee.2 0

/-- `_shooting_moves(plane, entry_exit_offset, push_conf,
vertical_offset_bool, sleep=.5)`: entry, contact, actuator ON, dwell,
optional push moves, exit, actuator OFF.  A raise inside `_push_moves`
propagates and the partially built script is discarded. -/
def _shooting_moves (plane : Plane) (entry_exit_offset : ℚ)
    (pc : PlanePushConf) (vertical : Bool) (sleepSecs : ℚ) :
    Except PyError (List Cmd) := do
  let ee := _get_offset_plane plane entry_exit_offset vertical
  let pushPart ←
    if truthy pc.pushing then _push_moves plane pc vertical
    else Except.ok []
  Except.ok <|
    _default_movel ee.1 0 ++ _default_movel plane 0 ++
      set_digital_out ACTUATOR_IO true ++ sleepUR sleepSecs ++
      pushPart ++
      _default_movel ee.2 0 ++
      set_digital_out ACTUATOR_IO false

/-- `_safe_travel_plane_moves(planes, reverse=False)`: one joint-space move
per plane, in input or reversed order. -/
def _safe_travel_plane_moves (planes : List Plane) (reverse : Bool) :
    List Cmd :=
  (if reverse then planes.reverse else planes).flatMap fun p =>
    move_j_pose p ROBOT_SAFE_SPEED ROBOT_ACCEL

/-- The per-run push configuration dictionary passed to `clay_shooting`:
each key maps to `None` or to a list of per-unit values (the default is
`{'pushing': [False]}`, i.e. every other field `none`). -/
structure PushConf : Type where
  pushing : Option (List Bool)
  n_pushes : Option (List ℕ)
  push_offsets : Option (List ℚ)
  angle_steps : Option (List ℚ)
  push_rotation_axis : Option (List Vec)
  deriving DecidableEq, Repr

/-- The default argument `push_conf={'pushing': [False]}`. -/
def defaultPushConf : PushConf :=
  { pushing := some [false], n_pushes := none, push_offsets := none,
    angle_steps := none, push_rotation_axis := none }

/-- The lengths of the per-run configuration lists, `none` for `None`
values, in dictionary-entry order. -/
def confLens (pc : PushConf) : List (Option ℕ) :=
  [pc.pushing.map List.length, pc.n_pushes.map List.length,
   pc.push_offsets.map List.length, pc.angle_steps.map List.length,
   pc.push_rotation_axis.map List.length]

/-- The validation loop of `clay_shooting`: every non-`None` configuration
list must have length equal to the number of placing planes or length 1,
otherwise the run raises. -/
def validatePushConf (pc : PushConf) (units : ℕ) : Bool :=
  (confLens pc).all fun o =>
    match o with
    | none => true
    | some len => len == units || len == 1

/-- Modelled from the spec: `utils.list_elem_w_index_wrap` is not among the
sources; per its name and the spec's broadcast rule (a length-1 list is
broadcast to all units, the pick grid rotates) it selects `lst[i % len(lst)]`;
an empty list raises (`i % 0`), modelled as `none`. -/
def list_elem_w_index_wrap (l : List α) (i : ℕ) : Option α :=
  if h : l.length = 0 then none else some (l.get ⟨i % l.length, Nat.mod_lt _ (Nat.pos_of_ne_zero h)⟩)

/-- The per-unit configuration extraction of `clay_shooting`'s instruction
building loop: `None` values stay `None`, list values are selected with
index wrap-around.  The outer `none` models a raise on an empty list. -/
def plane_push_conf (pc : PushConf) (i : ℕ) : Option PlanePushConf := do
  let pushing ← match pc.pushing with
    | none => some none
    | some l => (list_elem_w_index_wrap l i).map some
  let n_pushes ← match pc.n_pushes with
    | none => some none
    | some l => (list_elem_w_index_wrap l i).map some
  let push_offsets ← match pc.push_offsets with
    | none => some none
    | some l => (list_elem_w_index_wrap l i).map some
  let angle_steps ← match pc.angle_steps with
    | none => some none
    | some l => (list_elem_w_index_wrap l i).map some
  let push_rotation_axis ← match pc.push_rotation_axis with
    | none => some none
    | some l => (list_elem_w_index_wrap l i).map some
  some ⟨pushing, n_pushes, push_offsets, angle_steps, push_rotation_axis⟩

/-- One instruction of `clay_shooting`: the index of the picking-plane
object (a reference into the caller's list), the index of the placing-plane
object, and the per-unit push configuration. -/
structure Instr : Type where
  pickIdx : ℕ
  placeIdx : ℕ
  conf : PlanePushConf
  deriving DecidableEq, Repr

/-- One step of the instruction-building loop: resolve the wrap-around
picking-plane reference (`none` models the raise on an empty picking list)
and extract the per-unit push configuration. -/
def build_instr (pc : PushConf) (nPick : ℕ) (i : ℕ) : Option Instr := do
  let _ ← if nPick = 0 then none else some 0
  let conf ← plane_push_conf pc i
  some ⟨i % nPick, i, conf⟩

/-- The instruction-building loop of `clay_shooting`: one instruction per
placing plane, holding a wrap-around reference into the picking-plane list.
`none` models a raise (empty picking list or empty configuration list). -/
def build_instructions (pc : PushConf) (nPick nPlace : ℕ) :
    Option (List Instr) :=
  (List.range nPlace).mapM (build_instr pc nPick)

/-- The arguments of `clay_shooting` that the embedding tracks (the
`viz_planes_bool` branch and module reloads have no effect on the command
sequence or the caller's planes). -/
structure ClayArgs : Type where
  picking_planes : List Plane
  placing_planes : List Plane
  safe_travel_planes : List Plane
  dry_run : Bool
  push_conf : PushConf
  tool_rotation : ℚ
  picking_rotation : ℚ
  tool_height_correction : ℚ
  z_calib_picking : ℚ
  z_calib_placing : ℚ
  entry_exit_offset : ℚ
  vertical_offset_bool : Bool
  placing_index : ℕ

def safe_pos_1 : List ℚ :=
  [-50.31, -91.74, 74.55, -76.12, -92.86, 52.34].map radians

def safe_pos_2 : List ℚ :=
  [2, -91.74, 74.55, -76.12, -92.86, 52.34].map radians

/-- The setup preamble of `clay_shooting`, generated before the
configuration validation: set the tool frame, retract the actuator, move to
the initial safe configuration. -/
def clayPreamble (a : ClayArgs) : List Cmd :=
  set_tcp_by_plane_angles 0 0 (TOOL_HEIGHT + a.tool_height_correction) 0 0
      (radians a.tool_rotation) ++
    set_digital_out ACTUATOR_IO false ++
    move_j safe_pos_1 ROBOT_ACCEL ROBOT_SAFE_SPEED

/-- The fabrication loop of `clay_shooting`, threading the caller's plane
objects (state-passing embedding of the in-place `Plane.Translate` calls):
for each instruction, in the non-dry-run case the picking plane object is
calibrated in place and picking/safe-travel moves are emitted; then the
placing plane object is calibrated in place and the shooting moves are
emitted.  On a raise inside `_shooting_moves` the loop stops, keeping the
mutations and commands made so far. -/
def fabLoop (a : ClayArgs) :
    List Instr → List Plane × List Plane →
    (List Plane × List Plane) × List Cmd × Option PyError
  | [], st => (st, [], none)
  | instr :: rest, (pick, place) =>
    let (pick', pickCmds) :=
      if a.dry_run then (pick, ([] : List Cmd))
      else
        let newP := Plane.translate (Vec.world 0 0 a.z_calib_picking)
          (pick.getD instr.pickIdx (Plane.base 0))
        (pick.set instr.pickIdx newP,
         _picking_moves newP a.entry_exit_offset a.picking_rotation
            a.vertical_offset_bool ++
           _safe_travel_plane_moves a.safe_travel_planes false)
    let cmds1 := pickCmds ++ move_j safe_pos_2 ROBOT_ACCEL ROBOT_SAFE_SPEED
    let newQ := Plane.translate (Vec.world 0 0 a.z_calib_placing)
      (place.getD instr.placeIdx (Plane.base 0))
    let place' := place.set instr.placeIdx newQ
    match _shooting_moves newQ a.entry_exit_offset instr.conf
        a.vertical_offset_bool (1 / 2) with
    | Except.error e => ((pick', place'), cmds1, some e)
    | Except.ok shoot =>
      let cmds2 := shoot ++
        UR_log ("Bullet " ++ toString (instr.placeIdx + a.placing_index) ++
          " placed.") ++
        move_j safe_pos_2 ROBOT_ACCEL ROBOT_SAFE_SPEED ++
        move_j safe_pos_1 ROBOT_ACCEL ROBOT_SAFE_SPEED
      let (st', cmdsR, err) := fabLoop a rest (pick', place')
      (st', cmds1 ++ cmds2 ++ cmdsR, err)

/-- `clay_shooting` of rcf/ur/clay_shooting.py: returns the final state of
the caller's picking and placing plane objects, the generated command
sequence in generation order, and the raised error if any (on a raise the
commands generated so far were built but are discarded by the exception;
they are kept in the trace to record generation order). -/
def clay_shooting (a : ClayArgs) :
    (List Plane × List Plane) × List Cmd × Option PyError :=
  let pre := clayPreamble a
  if validatePushConf a.push_conf a.placing_planes.length then
    match build_instructions a.push_conf a.picking_planes.length
        a.placing_planes.length with
    | none => ((a.picking_planes, a.placing_planes), pre,
        some PyError.runtimeError)
    | some instrs =>
      let (st, cmds, err) := fabLoop a instrs
        (a.picking_planes, a.placing_planes)
      (st, pre ++ cmds, err)
  else
    ((a.picking_planes, a.placing_planes), pre, some PyError.configMismatch)

/-! ### rcf/ur/comm.py — command channel -/

/-- Observable events of `send_script` (rcf/ur/comm.py), in program order:
socket timeout changes, the connect attempt with its caught-failure print,
the `Exception("Program too long")` raise, the send attempt with its
caught-failure print, and the socket close. -/
inductive CommEvent : Type
  | setTimeout (secs : Option ℚ)
  | connectAttempt
  | printCannotConnect
  | raiseTooLong
  | sendAttempt
  | printFailedSend
  | close
  deriving DecidableEq, Repr

/-- `max_size = 2 << 18` in `send_script`. -/
def max_size : ℕ := 2 <<< 18

/-- `send_script(script_to_send, robot_id, offline_simulation)` as the trace
of its observable socket events.  `progLen` is `len(script_to_send)`;
`connectOk` is whether `s.connect` succeeds (a failure is caught and
printed); `sendOk` is whether `s.send` succeeds given the connection state
(a send on an unconnected socket always fails; a send failure is caught and
printed).  The oversize raise propagates: no later event runs. -/
def send_script (progLen : ℕ) (connectOk sendOk : Bool) : List CommEvent :=
  [CommEvent.setTimeout (some 2), CommEvent.connectAttempt] ++
    (if connectOk then [] else [CommEvent.printCannotConnect]) ++
    [CommEvent.setTimeout none] ++
    if max_size < progLen then
      [CommEvent.raiseTooLong]
    else
      [CommEvent.sendAttempt] ++
        (if connectOk && sendOk then [] else [CommEvent.printFailedSend]) ++
        [CommEvent.close]

/-! ### rcf/ur/comm.py — telemetry decoding -/

/-- Errors of the telemetry path: `struct.error` from `struct.unpack` on a
slice of the wrong byte count, and the socket error of `s.recv` on a socket
whose `connect` failed (the connect failure itself is caught and printed,
the following `recv` is not guarded). -/
inductive TelemetryErr : Type
  | structError
  | socketNotConnected
  deriving DecidableEq, Repr

/-- A decoded IEEE-754 value, kept symbolic: `ofBits w` is the double with
big-endian bit pattern `w`, `degrees v` is `math.degrees(v)`. -/
inductive FVal : Type
  | ofBits (w : ℕ)
  | degrees (v : FVal)
  deriving DecidableEq, Repr

/-- Big-endian read of a byte list as one unsigned number (the bit pattern
of one `!d` field when the list has 8 bytes). -/
def decodeBE (bs : List ℕ) : ℕ :=
  bs.foldl (fun acc b => acc * 256 + b) 0

/-- The 8 big-endian bytes of a 64-bit pattern. -/
def encodeBE64 (w : ℕ) : List ℕ :=
  [w / 2 ^ 56 % 256, w / 2 ^ 48 % 256, w / 2 ^ 40 % 256, w / 2 ^ 32 % 256,
   w / 2 ^ 24 % 256, w / 2 ^ 16 % 256, w / 2 ^ 8 % 256, w % 256]

/-- Python slice `l[a:b]` (clamping, never raising). -/
def pySlice (l : List ℕ) (a b : ℕ) : List ℕ :=
  (l.drop a).take (b - a)

/-- `struct.unpack` of `count` big-endian doubles (`"!d"*count`): requires
exactly `8*count` bytes, else raises `struct.error`; yields the bit
patterns. -/
def unpackDoubles (count : ℕ) (bs : List ℕ) :
    Except TelemetryErr (List ℕ) :=
  if bs.length = 8 * count then
    Except.ok ((List.range count).map fun i => decodeBE ((bs.drop (8 * i)).take 8))
  else
    Except.error TelemetryErr.structError

/-- The chunks dictionary filled by `get_messages`. -/
structure Chunks : Type where
  target_joints : List FVal
  actual_joints : List FVal
  forces : List FVal
  pose : List FVal
  time : List FVal
  deriving DecidableEq, Repr

/-- `get_messages(bytes, chunks_info)` of rcf/ur/comm.py: slice the fixed
byte ranges, unpack big-endian doubles, convert target and actual joints to
degrees, store forces, pose and time unconverted. -/
def get_messages (buf : List ℕ) : Except TelemetryErr Chunks := do
  let q_target := pySlice buf 12 60
  let q_actual := pySlice buf 252 300
  let tcp_force := pySlice buf 540 588
  let tool_vector := pySlice buf 588 636
  let controller_time := pySlice buf 740 748
  let target_joints ← unpackDoubles 6 q_target
  let actual_joints ← unpackDoubles 6 q_actual
  let forces ← unpackDoubles 6 tcp_force
  let pose ← unpackDoubles 6 tool_vector
  let time ← unpackDoubles 1 controller_time
  Except.ok
    { target_joints := target_joints.map fun w => FVal.degrees (FVal.ofBits w)
      actual_joints := actual_joints.map fun w => FVal.degrees (FVal.ofBits w)
      forces := forces.map FVal.ofBits
      pose := pose.map FVal.ofBits
      time := time.map FVal.ofBits }

/-- `read(HOST, PORT)` of rcf/ur/comm.py: the connect failure is caught and
printed, but the following unguarded `s.recv(1024)` on the unconnected
socket raises. -/
def readFeedback (connectOk : Bool) (data : List ℕ) :
    Except TelemetryErr (List ℕ) :=
  if connectOk then Except.ok data
  else Except.error TelemetryErr.socketNotConnected

/-- `listen_to_robot(robot_id, ...)`: read then decode; no handler, so any
error propagates to the caller. -/
def listen_to_robot (connectOk : Bool) (data : List ℕ) :
    Except TelemetryErr Chunks := do
  let d ← readFeedback connectOk data
  get_messages d

/-! ### src/compas_rcf/abb_runner.py — chunked ("triple") fabrication -/

/-- A clay bullet as the chunked runner sees it: identity plus the two
fields the run mutates (`placed` timestamp and `cycle_time`). -/
structure ABullet : Type where
  bullet_id : ℕ
  placed : Option ℕ
  cycle_time : Option ℕ
  deriving DecidableEq, Repr

/-- `chunks(lst, n)` of abb_runner.py: successive slices
`lst[i : i + n]` for `i in range(0, len(lst), n)` (for `0 < n`). -/
def chunks (l : List α) (n : ℕ) : List (List α) :=
  (List.range ((l.length + n - 1) / n)).map fun i => (l.drop (i * n)).take n

/-- The chunk loop of `abb_run`: process chunks in order, but
`if len(chunk) != 3: break` — a chunk of any other length stops the loop,
leaving it and every later chunk untouched.  Each processed chunk's bullets
get `placed` set (to the chunk's clock tick here; the source uses
`time.time()`). -/
def processChunks (clock : ℕ) : List (List ABullet) → List ABullet
  | [] => []
  | c :: rest =>
    if c.length ≠ 3 then c ++ rest.flatten
    else (c.map fun b => { b with placed := some clock }) ++
      processChunks (clock + 1) rest

/-- The fabrication portion of `abb_run` (abb_runner.py) for a fresh run in
which `setup_fab_data` returned the whole list (`to_place` aliases
`clay_bullets`): reset `placed`/`cycle_time`, chunk by 3, run the chunk
loop, then promote the in-progress ledger exactly when no bullet is left
with `placed is None`.  Returns the final ledger and the promotion flag. -/
def abb_run_fab (clay_bullets : List ABullet) : List ABullet × Bool :=
  let to_place := clay_bullets.map fun b =>
    { b with placed := none, cycle_time := none }
  let chunks_to_place := chunks to_place 3
  let final := processChunks 0 chunks_to_place
  (final, (final.filter fun b => b.placed = none).length == 0)

/-! ### src/compas_rcf/abb/run.py — per-unit fabrication loop -/

/-- The value written to a unit's `placed` field: the temporary marker
(`bullet.placed = 1`) or the timestamp (`bullet.placed = time.time()`,
modelled as the loop index). -/
inductive PlacedVal : Type
  | marker
  | timestamp (t : ℕ)
  deriving DecidableEq, Repr

/-- Observable events of `main`'s fabrication loop (abb/run.py), recording
every mutation of a unit's fields and the synchronisation points.
`writePlaced i none` / `writeCycle i none` are the pre-loop resets;
`futuresResolved i` is the blocking
`pick_future.result() + place_future.result()`. -/
inductive RunEvent : Type
  | writePlaced (i : ℕ) (v : Option PlacedVal)
  | writeCycle (i : ℕ) (v : Option ℕ)
  | pickIssued (i : ℕ)
  | placeIssued (i : ℕ)
  | persistLedger
  | futuresResolved (i : ℕ)
  deriving DecidableEq, Repr

/-- The fabrication loop of `main` (abb/run.py) over `n` units as its event
trace: first the reset loop (`bullet.placed = None; bullet.cycle_time =
None`), then per unit: issue pick, issue place, write the temporary
`placed = 1` marker, persist the in-progress ledger (unless skipped), block
on both futures, write `cycle_time`, write the real `placed` timestamp;
finally one more persist of the last loop run (unless skipped). -/
def run_main_loop (n : ℕ) (skipProgress : Bool) : List RunEvent :=
  ((List.range n).flatMap fun i =>
    [RunEvent.writePlaced i none, RunEvent.writeCycle i none]) ++
  ((List.range n).flatMap fun i =>
    [RunEvent.pickIssued i, RunEvent.placeIssued i,
     RunEvent.writePlaced i (some PlacedVal.marker)] ++
    (if skipProgress then [] else [RunEvent.persistLedger]) ++
    [RunEvent.futuresResolved i, RunEvent.writeCycle i (some i),
     RunEvent.writePlaced i (some (PlacedVal.timestamp i))]) ++
  (if skipProgress then [] else [RunEvent.persistLedger])

/-! ### Shared lemmas -/

/-- Every command an `ok` result of `_push_moves` contains is a linear move
with the pushing blend radius. -/
theorem push_moves_moveL_only (plane : Plane) (pc : PlanePushConf) (v : Bool)
    (pp : List Cmd) (h : _push_moves plane pc v = Except.ok pp) :
    ∀ c ∈ pp, ∃ q sp a, c = Cmd.moveL q sp a BLEND_RADIUS_PUSHING := by
  rcases pc with ⟨pu, np, po, as_, ax⟩
  cases np <;> cases po <;> cases as_ <;> cases ax <;>
    simp only [_push_moves, Except.ok.injEq, reduceCtorEq] at h
  case some.some.some.some n dist step axis =>
    subst h
    intro c hc
    simp only [List.mem_flatMap, List.mem_range, _default_movel, move_l,
      List.mem_singleton] at hc
    obtain ⟨i, _, rfl⟩ := hc
    exact ⟨_, _, _, rfl⟩

/-- `_shooting_moves` as an explicit shape: the optional push segment
wrapped between entry/contact/actuator-on/dwell and
exit/actuator-off. -/
theorem shooting_moves_eq (p : Plane) (eeo : ℚ) (pc : PlanePushConf)
    (v : Bool) (slp : ℚ) :
    _shooting_moves p eeo pc v slp =
      (if truthy pc.pushing then _push_moves p pc v else Except.ok []).map
        fun pp =>
          _default_movel (_get_offset_plane p eeo v).1 0 ++
            _default_movel p 0 ++
            set_digital_out ACTUATOR_IO true ++ sleepUR slp ++ pp ++
            _default_movel (_get_offset_plane p eeo v).2 0 ++
            set_digital_out ACTUATOR_IO false := by
  unfold _shooting_moves
  by_cases hp : truthy pc.pushing
  · rw [if_pos hp, if_pos hp]
    cases h : _push_moves p pc v <;>
      simp [h, Except.map, Bind.bind, Except.bind]
  · rw [if_neg hp, if_neg hp]
    simp [Except.map, Bind.bind, Except.bind]

/-! ### C1 -/

/-- C1: for every placing frame, entry/exit offset, push configuration and
vertical flag, every shooting/placing sequence the synthesis produces
contains exactly one actuator-ON and exactly one actuator-OFF command, with
ON strictly before OFF, regardless of whether pushing is enabled; a raise
inside the push segment produces no sequence at all, so no path emits ON
without later emitting OFF. -/
theorem C1_shooting_actuator_paired (plane : Plane) (eeo : ℚ)
    (pc : PlanePushConf) (vertical : Bool) (slp : ℚ) (s : List Cmd)
    (h : _shooting_moves plane eeo pc vertical slp = Except.ok s) :
    s.count (Cmd.setDigitalOut ACTUATOR_IO true) = 1 ∧
    s.count (Cmd.setDigitalOut ACTUATOR_IO false) = 1 ∧
    ∃ u v w, s = u ++ Cmd.setDigitalOut ACTUATOR_IO true ::
      (v ++ Cmd.setDigitalOut ACTUATOR_IO false :: w) := by
  rw [shooting_moves_eq] at h
  cases hpp : (if truthy pc.pushing then _push_moves plane pc vertical
      else Except.ok []) with
  | error e => rw [hpp] at h; exact absurd h (by simp [Except.map])
  | ok pp =>
    rw [hpp] at h
    simp only [Except.map, Except.ok.injEq] at h
    have hmoveL : ∀ c ∈ pp, ∃ q sp a, c = Cmd.moveL q sp a BLEND_RADIUS_PUSHING := by
      by_cases hp : truthy pc.pushing
      · rw [if_pos hp] at hpp
        exact push_moves_moveL_only plane pc vertical pp hpp
      · rw [if_neg hp] at hpp
        cases hpp
        intro c hc
        exact absurd hc (List.not_mem_nil c)
    have hONnot : Cmd.setDigitalOut ACTUATOR_IO true ∉ pp := by
      intro hm
      obtain ⟨q, sp, a, hc⟩ := hmoveL _ hm
      exact absurd hc (by simp)
    have hOFFnot : Cmd.setDigitalOut ACTUATOR_IO false ∉ pp := by
      intro hm
      obtain ⟨q, sp, a, hc⟩ := hmoveL _ hm
      exact absurd hc (by simp)
    subst h
    refine ⟨?_, ?_, ?_⟩
    · simp [_default_movel, move_l, set_digital_out, sleepUR,
        List.count_append, List.count_singleton, List.count_eq_zero.mpr hONnot]
    · simp [_default_movel, move_l, set_digital_out, sleepUR,
        List.count_append, List.count_singleton, List.count_eq_zero.mpr hOFFnot]
    · refine ⟨[Cmd.moveL (_get_offset_plane plane eeo vertical).1 ROBOT_L_SPEED
          ROBOT_ACCEL 0, Cmd.moveL plane ROBOT_L_SPEED ROBOT_ACCEL 0],
        Cmd.sleepCmd slp :: pp ++
          [Cmd.moveL (_get_offset_plane plane eeo vertical).2 ROBOT_L_SPEED
            ROBOT_ACCEL 0], [], ?_⟩
      simp [_default_movel, move_l, set_digital_out, sleepUR]

/-- The shooting sequence for a concrete base plane with pushing disabled,
used as the witness input for C1. -/
def c1WitnessSeq : List Cmd :=
  [Cmd.moveL (Plane.translate (Vec.smul (-40) (Vec.normalOf 0)) (Plane.base 0))
      ROBOT_L_SPEED ROBOT_ACCEL 0,
   Cmd.moveL (Plane.base 0) ROBOT_L_SPEED ROBOT_ACCEL 0,
   Cmd.setDigitalOut 4 true,
   Cmd.sleepCmd (1 / 2),
   Cmd.moveL (Plane.translate (Vec.smul (-40) (Vec.normalOf 0)) (Plane.base 0))
      ROBOT_L_SPEED ROBOT_ACCEL 0,
   Cmd.setDigitalOut 4 false]

/-- Witness for C1: at a concrete placing frame with pushing disabled the
generated sequence is `c1WitnessSeq` and the pairing property holds of it. -/
theorem C1_shooting_actuator_paired_witness :
    _shooting_moves (Plane.base 0) (-40)
      ⟨some false, none, none, none, none⟩ false (1 / 2) =
        Except.ok c1WitnessSeq ∧
    (c1WitnessSeq.count (Cmd.setDigitalOut ACTUATOR_IO true) = 1 ∧
     c1WitnessSeq.count (Cmd.setDigitalOut ACTUATOR_IO false) = 1 ∧
     ∃ u v w, c1WitnessSeq = u ++ Cmd.setDigitalOut ACTUATOR_IO true ::
       (v ++ Cmd.setDigitalOut ACTUATOR_IO false :: w)) :=
  ⟨by rfl,
   C1_shooting_actuator_paired (Plane.base 0) (-40)
     ⟨some false, none, none, none, none⟩ false (1 / 2) c1WitnessSeq
     (by rfl)⟩

/-! ### C7 -/

/-- The blend radius of a command: `some b` for a linear move with blend
radius `b`, `none` for any non-linear-move command. -/
def blendOf : Cmd → Option ℚ
  | Cmd.moveL _ _ _ b => some b
  | _ => none

/-- C7: the push sequence emits exactly `n` linear moves; the k-th (1-based)
targets the single retracted offset plane (translated opposite the contact
direction by the configured offset) rotated about the base frame's origin by
cumulative angle `k * angle_step`; every push move carries the fixed
non-zero pushing blend radius, while every other linear move of the picking
and shooting choreographies carries blend radius 0. -/
theorem C7_push_sequence (plane : Plane) (vertical : Bool)
    (pc : PlanePushConf) (n : ℕ) (dist step : ℚ) (axis : Vec)
    (hn : pc.n_pushes = some n) (hd : pc.push_offsets = some dist)
    (hs : pc.angle_steps = some step) (ha : pc.push_rotation_axis = some axis) :
    (_push_moves plane pc vertical = Except.ok ((List.range n).map fun i =>
        Cmd.moveL
          (Plane.rotate (radians ((i + 1 : ℕ) * step)) axis plane.Origin
            (Plane.translate
              (Vec.smul (-dist)
                (if vertical then Vec.world 0 0 (-1) else plane.Normal))
              plane))
          ROBOT_L_SPEED ROBOT_ACCEL BLEND_RADIUS_PUSHING) ∧
      ∀ s, _push_moves plane pc vertical = Except.ok s →
        s.length = n ∧
        ∀ k, k < n → s.get? k = some (Cmd.moveL
          (Plane.rotate (radians ((k + 1 : ℕ) * step)) axis plane.Origin
            (Plane.translate
              (Vec.smul (-dist)
                (if vertical then Vec.world 0 0 (-1) else plane.Normal))
              plane))
          ROBOT_L_SPEED ROBOT_ACCEL BLEND_RADIUS_PUSHING)) ∧
    BLEND_RADIUS_PUSHING ≠ 0 ∧
    (∀ (p' : Plane) (e r : ℚ) (v' : Bool) (c : Cmd),
      c ∈ _picking_moves p' e r v' → blendOf c = some 0) ∧
    (∀ (p' : Plane) (e : ℚ) (pc' : PlanePushConf) (v' : Bool) (slp : ℚ)
        (s' : List Cmd),
      _shooting_moves p' e pc' v' slp = Except.ok s' →
      ∀ c ∈ s', blendOf c = some 0 ∨ blendOf c = none ∨
        ∃ pp, _push_moves p' pc' v' = Except.ok pp ∧ c ∈ pp) := by
  have hpush : _push_moves plane pc vertical = Except.ok ((List.range n).map fun i =>
      Cmd.moveL
        (Plane.rotate (radians ((i + 1 : ℕ) * step)) axis plane.Origin
          (Plane.translate
            (Vec.smul (-dist)
              (if vertical then Vec.world 0 0 (-1) else plane.Normal))
            plane))
        ROBOT_L_SPEED ROBOT_ACCEL BLEND_RADIUS_PUSHING) := by
    unfold _push_moves
    rw [hn, hd, hs, ha]
    simp only [_default_movel, move_l, Except.ok.injEq]
    exact (List.map_eq_bind _ _).symm
  refine ⟨⟨hpush, ?_⟩, by norm_num [BLEND_RADIUS_PUSHING], ?_, ?_⟩
  · intro s hsOk
    rw [hpush] at hsOk
    cases hsOk
    constructor
    · simp
    · intro k hk
      rw [List.get?_map, List.get?_range hk]
      rfl
  · intro p' e r v' c hc
    unfold _picking_moves at hc
    by_cases hr : 0 < r <;>
      simp only [hr, if_true, if_false, _default_movel, move_l,
        List.append_assoc, List.mem_append, List.mem_singleton,
        List.not_mem_nil, or_false, false_or] at hc
    · rcases hc with rfl | rfl | rfl | rfl <;> rfl
    · rcases hc with rfl | rfl | rfl <;> rfl
  · intro p' e pc' v' slp s' hs' c hc
    rw [shooting_moves_eq] at hs'
    cases hpp : (if truthy pc'.pushing then _push_moves p' pc' v'
        else Except.ok []) with
    | error e' => rw [hpp] at hs'; exact absurd hs' (by simp [Except.map])
    | ok pp =>
      rw [hpp] at hs'
      simp only [Except.map, Except.ok.injEq] at hs'
      subst hs'
      simp only [_default_movel, move_l, set_digital_out, sleepUR,
        List.append_assoc, List.mem_append, List.mem_singleton] at hc
      rcases hc with rfl | rfl | rfl | rfl | h | rfl | rfl
      · exact Or.inl rfl
      · exact Or.inl rfl
      · exact Or.inr (Or.inl rfl)
      · exact Or.inr (Or.inl rfl)
      · by_cases hp : truthy pc'.pushing
        · rw [if_pos hp] at hpp
          exact Or.inr (Or.inr ⟨pp, hpp, h⟩)
        · rw [if_neg hp] at hpp
          cases hpp
          exact absurd h (List.not_mem_nil c)
      · exact Or.inl rfl
      · exact Or.inr (Or.inl rfl)

/-- A concrete per-plane push configuration (pushing enabled, two pushes of
90-degree steps about the world z axis), the witness input for C7. -/
def c7pc : PlanePushConf :=
  ⟨some true, some 2, some 30, some 90, some (Vec.world 0 0 1)⟩

/-- Witness for C7: the push-sequence properties at a concrete base plane
and configuration, with every hypothesis discharged by evaluation. -/
theorem C7_push_sequence_witness :
    c7pc.n_pushes = some 2 ∧ c7pc.push_offsets = some 30 ∧
    c7pc.angle_steps = some 90 ∧
    c7pc.push_rotation_axis = some (Vec.world 0 0 1) ∧
    ((_push_moves (Plane.base 3) c7pc false =
        Except.ok ((List.range 2).map fun i =>
          Cmd.moveL
            (Plane.rotate (radians ((i + 1 : ℕ) * 90)) (Vec.world 0 0 1)
              (Plane.base 3).Origin
              (Plane.translate
                (Vec.smul (-30)
                  (if false then Vec.world 0 0 (-1) else (Plane.base 3).Normal))
                (Plane.base 3)))
            ROBOT_L_SPEED ROBOT_ACCEL BLEND_RADIUS_PUSHING) ∧
      ∀ s, _push_moves (Plane.base 3) c7pc false = Except.ok s →
        s.length = 2 ∧
        ∀ k, k < 2 → s.get? k = some (Cmd.moveL
          (Plane.rotate (radians ((k + 1 : ℕ) * 90)) (Vec.world 0 0 1)
            (Plane.base 3).Origin
            (Plane.translate
              (Vec.smul (-30)
                (if false then Vec.world 0 0 (-1) else (Plane.base 3).Normal))
              (Plane.base 3)))
          ROBOT_L_SPEED ROBOT_ACCEL BLEND_RADIUS_PUSHING)) ∧
    BLEND_RADIUS_PUSHING ≠ 0 ∧
    (∀ (p' : Plane) (e r : ℚ) (v' : Bool) (c : Cmd),
      c ∈ _picking_moves p' e r v' → blendOf c = some 0) ∧
    (∀ (p' : Plane) (e : ℚ) (pc' : PlanePushConf) (v' : Bool) (slp : ℚ)
        (s' : List Cmd),
      _shooting_moves p' e pc' v' slp = Except.ok s' →
      ∀ c ∈ s', blendOf c = some 0 ∨ blendOf c = none ∨
        ∃ pp, _push_moves p' pc' v' = Except.ok pp ∧ c ∈ pp)) :=
  ⟨rfl, rfl, rfl, rfl,
   C7_push_sequence (Plane.base 3) false c7pc 2 30 90 (Vec.world 0 0 1)
     rfl rfl rfl rfl⟩

/-! ### C8 -/

/-- Concrete `clay_shooting` arguments with a mismatched configuration
list: three placing planes but a two-element `n_pushes` list. -/
def c8BadArgs : ClayArgs :=
  { picking_planes := [Plane.base 0, Plane.base 1]
    placing_planes := [Plane.base 10, Plane.base 11, Plane.base 12]
    safe_travel_planes := [Plane.base 20]
    dry_run := false
    push_conf := { defaultPushConf with n_pushes := some [1, 2] }
    tool_rotation := 0
    picking_rotation := 0
    tool_height_correction := 0
    z_calib_picking := 2
    z_calib_placing := 3
    entry_exit_offset := -40
    vertical_offset_bool := false
    placing_index := 0 }

/-- Counterexample for C8: on a mismatched configuration list the run does
raise the configuration error, but only after generating the three-command
setup preamble (tool frame, actuator retract, safe-position move), so the
error is not raised "before any command is generated". -/
theorem C8_counterexample :
    (clay_shooting c8BadArgs).2.2 = some PyError.configMismatch ∧
    (clay_shooting c8BadArgs).2.1 = clayPreamble c8BadArgs ∧
    (clay_shooting c8BadArgs).2.1.length = 3 := by
  refine ⟨by rfl, by rfl, by rfl⟩

/-- C8 (amended): for every per-run push-configuration entry whose value
list has a length different from 1 and from the number of placing planes,
`clay_shooting` raises the configuration error before any per-unit command
is generated: the caller's planes are untouched and the generated commands
are exactly the fixed three-command setup preamble (which the raise then
discards — no partial per-unit sequence is ever produced). -/
theorem C8_config_mismatch_fail_fast (a : ClayArgs) (o : Option ℕ) (L : ℕ)
    (hmem : o ∈ confLens a.push_conf) (hL : o = some L)
    (hunits : L ≠ a.placing_planes.length) (h1 : L ≠ 1) :
    clay_shooting a =
      ((a.picking_planes, a.placing_planes), clayPreamble a,
        some PyError.configMismatch) := by
  have hval : validatePushConf a.push_conf a.placing_planes.length = false := by
    rw [Bool.eq_false_iff]
    intro hall
    rw [validatePushConf, List.all_eq_true] at hall
    have := hall o hmem
    rw [hL] at this
    simp only [Bool.or_eq_true, beq_iff_eq] at this
    rcases this with h | h
    · exact hunits h
    · exact h1 h
  unfold clay_shooting
  rw [hval]
  simp

/-- Witness for C8 (amended): the fail-fast behaviour at the concrete
mismatched arguments. -/
theorem C8_config_mismatch_fail_fast_witness :
    (some 2 ∈ confLens c8BadArgs.push_conf ∧
      (2 : ℕ) ≠ c8BadArgs.placing_planes.length ∧ (2 : ℕ) ≠ 1) ∧
    clay_shooting c8BadArgs =
      ((c8BadArgs.picking_planes, c8BadArgs.placing_planes),
        clayPreamble c8BadArgs, some PyError.configMismatch) :=
  ⟨⟨by decide, by decide, by decide⟩,
   C8_config_mismatch_fail_fast c8BadArgs (some 2) 2 (by decide) rfl
     (by decide) (by decide)⟩

/-! ### C3 and C4 -/

/-- Counterexample for C3: for an oversized program (one byte above the
cap) the too-long error is raised and nothing is sent, but only *after* the
socket connect attempt — the trace is literally connect first, raise
second. -/
theorem C3_counterexample :
    send_script (max_size + 1) true true =
      [CommEvent.setTimeout (some 2), CommEvent.connectAttempt,
       CommEvent.setTimeout none, CommEvent.raiseTooLong] := by
  decide

/-- C3 (amended): for every program whose byte length exceeds the cap,
`send_script` raises the "Program too long" error and the program bytes are
never sent (no send attempt appears in the trace) — but the raise happens
only after the socket connect attempt, not before any device
interaction. -/
theorem C3_oversize_rejected (progLen : ℕ) (connectOk sendOk : Bool)
    (h : max_size < progLen) :
    CommEvent.raiseTooLong ∈ send_script progLen connectOk sendOk ∧
    CommEvent.sendAttempt ∉ send_script progLen connectOk sendOk ∧
    send_script progLen connectOk sendOk =
      [CommEvent.setTimeout (some 2), CommEvent.connectAttempt] ++
        (if connectOk then [] else [CommEvent.printCannotConnect]) ++
        [CommEvent.setTimeout none, CommEvent.raiseTooLong] := by
  unfold send_script
  rw [if_pos h]
  cases connectOk <;> simp

/-- Witness for C3 (amended): the oversize rejection evaluated one byte
above the cap. -/
theorem C3_oversize_rejected_witness :
    max_size < max_size + 1 ∧
    (CommEvent.raiseTooLong ∈ send_script (max_size + 1) true true ∧
     CommEvent.sendAttempt ∉ send_script (max_size + 1) true true ∧
     send_script (max_size + 1) true true =
       [CommEvent.setTimeout (some 2), CommEvent.connectAttempt] ++
         (if true then [] else [CommEvent.printCannotConnect]) ++
         [CommEvent.setTimeout none, CommEvent.raiseTooLong]) :=
  ⟨Nat.lt_succ_self _,
   C3_oversize_rejected (max_size + 1) true true (Nat.lt_succ_self _)⟩

/-- Counterexample for C4: on rejection of an oversized program the raise
propagates before `s.close()` — the trace of an oversized invocation
contains no close event, so not every invocation closes the socket. -/
theorem C4_counterexample :
    CommEvent.close ∉ send_script (max_size + 1) true true := by
  decide

/-- C4 (amended): every invocation of `send_script` whose program does not
exceed the size cap closes the socket, as the last event, both on a
successful send and on a lower-level send failure; on rejection of an
oversized program the raise propagates before the close, so no close
happens on that path. -/
theorem C4_close_behaviour (progLen : ℕ) (connectOk sendOk : Bool) :
    (progLen ≤ max_size →
      CommEvent.close ∈ send_script progLen connectOk sendOk ∧
      (send_script progLen connectOk sendOk).getLast? =
        some CommEvent.close) ∧
    (max_size < progLen →
      CommEvent.close ∉ send_script progLen connectOk sendOk) := by
  constructor
  · intro h
    unfold send_script
    rw [if_neg (Nat.not_lt.mpr h)]
    cases connectOk <;> cases sendOk <;> simp
  · intro h
    unfold send_script
    rw [if_pos h]
    cases connectOk <;> simp

/-- Witness for C4 (amended): close behaviour evaluated at the cap (sent
and closed) — the hypotheses of both conjuncts discharged at their
respective concrete program lengths. -/
theorem C4_close_behaviour_witness :
    (max_size ≤ max_size ∧
      CommEvent.close ∈ send_script max_size true false ∧
      (send_script max_size true false).getLast? = some CommEvent.close) ∧
    (max_size < max_size + 1 ∧
      CommEvent.close ∉ send_script (max_size + 1) false true) :=
  ⟨⟨Nat.le_refl _, (C4_close_behaviour max_size true false).1 (Nat.le_refl _)⟩,
   ⟨Nat.lt_succ_self _,
    (C4_close_behaviour (max_size + 1) false true).2 (Nat.lt_succ_self _)⟩⟩

/-! ### C2 -/

/-- Five fresh fabrication units. -/
def demo5 : List ABullet :=
  [⟨0, none, none⟩, ⟨1, none, none⟩, ⟨2, none, none⟩,
   ⟨3, none, none⟩, ⟨4, none, none⟩]

/-- C2 evaluation (code bug): over 5 units with chunk size 3 the chunking
produces two chunks of sizes 3 and 2, but the fabrication loop of
`abb_run` breaks at the two-element chunk (`if len(chunk) != 3: break`), so
only the first three units get a placed timestamp and the in-progress
ledger is never promoted to the done store — contradicting the claimed
3 + 2 processing with all 5 placed. -/
theorem C2_partial_chunk_dropped :
    (chunks demo5 3).map List.length = [3, 2] ∧
    ((abb_run_fab demo5).1.map fun b => b.placed.isSome) =
      [true, true, true, false, false] ∧
    (abb_run_fab demo5).2 = false := by
  decide

/-! ### C9 -/

/-- The per-unit happenings that matter for the write discipline of
`main`'s loop. -/
inductive UnitTag : Type
  | resetPlaced
  | resetCycle
  | markerWrite
  | resolved
  | cycleWrite
  | stampWrite
  deriving DecidableEq, Repr

/-- Project the event trace onto unit `i`: its field writes and its
future-resolution point; everything else is dropped. -/
def projUnit (i : ℕ) : RunEvent → Option UnitTag
  | RunEvent.writePlaced j none =>
      if j = i then some UnitTag.resetPlaced else none
  | RunEvent.writePlaced j (some PlacedVal.marker) =>
      if j = i then some UnitTag.markerWrite else none
  | RunEvent.writePlaced j (some (PlacedVal.timestamp _)) =>
      if j = i then some UnitTag.stampWrite else none
  | RunEvent.writeCycle j none =>
      if j = i then some UnitTag.resetCycle else none
  | RunEvent.writeCycle j (some _) =>
      if j = i then some UnitTag.cycleWrite else none
  | RunEvent.futuresResolved j =>
      if j = i then some UnitTag.resolved else none
  | _ => none

/-- `filterMap` distributes over `flatMap`. -/
theorem filterMap_flatMap_eq {α β γ : Type} (g : β → Option γ)
    (f : α → List β) (l : List α) :
    (l.flatMap f).filterMap g = l.flatMap fun x => (f x).filterMap g := by
  induction l with
  | nil => rfl
  | cons a l ih => simp [List.flatMap_cons, List.filterMap_append, ih]

/-- A `flatMap` over `range n` of a function that is empty except at
`i < n` collapses to the value at `i`. -/
theorem flatMap_range_single {γ : Type} (n i : ℕ) (h : i < n) (v : List γ) :
    ((List.range n).flatMap fun j => if j = i then v else []) = v := by
  induction n with
  | zero => omega
  | succ n ih =>
    rw [List.range_succ, List.flatMap_append, List.flatMap_singleton]
    rcases Nat.lt_succ_iff_lt_or_eq.mp h with h' | rfl
    · rw [ih h', if_neg (by omega)]
      simp
    · rw [if_pos rfl]
      have hnil : ((List.range i).flatMap fun j => if j = i then v else []) =
          [] := by
        rw [List.flatMap_eq_nil_iff]
        intro x hx
        rw [if_neg (by simpa using Nat.ne_of_lt (List.mem_range.mp hx))]
      rw [hnil, List.nil_append]

/-- The projection of one reset block. -/
theorem projUnit_reset_block (i j : ℕ) :
    ([RunEvent.writePlaced j none,
      RunEvent.writeCycle j none].filterMap (projUnit i)) =
      if j = i then [UnitTag.resetPlaced, UnitTag.resetCycle] else [] := by
  by_cases h : j = i <;> simp [projUnit, h]

/-- The projection of one fabrication-loop body block. -/
theorem projUnit_body_block (i j : ℕ) (skip : Bool) :
    (([RunEvent.pickIssued j, RunEvent.placeIssued j,
        RunEvent.writePlaced j (some PlacedVal.marker)] ++
      (if skip then [] else [RunEvent.persistLedger]) ++
      [RunEvent.futuresResolved j, RunEvent.writeCycle j (some j),
        RunEvent.writePlaced j (some (PlacedVal.timestamp j))]).filterMap
      (projUnit i)) =
      if j = i then
        [UnitTag.markerWrite, UnitTag.resolved, UnitTag.cycleWrite,
         UnitTag.stampWrite]
      else [] := by
  cases skip <;> by_cases h : j = i <;> simp [projUnit, h]

/-- Counterexample for C9: in a one-unit run the `placed` field of unit 0
receives two non-`None` writes (the temporary marker `1`, then the real
timestamp), not exactly one, and the marker write precedes the resolution
of the pick/place futures — visible in the projected event order. -/
theorem C9_counterexample :
    ((run_main_loop 1 false).countP fun e =>
      match e with
      | RunEvent.writePlaced 0 (some _) => true
      | _ => false) = 2 ∧
    (run_main_loop 1 false).filterMap (projUnit 0) =
      [UnitTag.resetPlaced, UnitTag.resetCycle, UnitTag.markerWrite,
       UnitTag.resolved, UnitTag.cycleWrite, UnitTag.stampWrite] := by
  decide

/-- C9 (amended): during a fabrication run the orchestrator mutates only
`placed` and `cycle_time`; per unit, projected onto that unit, the trace of
its field writes is exactly: reset of `placed`, reset of `cycle_time`, a
temporary marker write to `placed` *before* the blocking future resolution,
then — immediately after the futures resolve — exactly one `cycle_time`
write followed by the real `placed` timestamp write.  So `placed` is
written twice (marker then timestamp), not once. -/
theorem C9_unit_field_writes (n i : ℕ) (skip : Bool) (h : i < n) :
    (run_main_loop n skip).filterMap (projUnit i) =
      [UnitTag.resetPlaced, UnitTag.resetCycle, UnitTag.markerWrite,
       UnitTag.resolved, UnitTag.cycleWrite, UnitTag.stampWrite] := by
  unfold run_main_loop
  rw [List.filterMap_append, List.filterMap_append,
    filterMap_flatMap_eq, filterMap_flatMap_eq]
  simp only [projUnit_reset_block, projUnit_body_block]
  rw [flatMap_range_single n i h, flatMap_range_single n i h]
  cases skip <;> simp [projUnit]

/-- Witness for C9 (amended): the write discipline evaluated for unit 1 of
a three-unit run. -/
theorem C9_unit_field_writes_witness :
    1 < 3 ∧
    (run_main_loop 3 false).filterMap (projUnit 1) =
      [UnitTag.resetPlaced, UnitTag.resetCycle, UnitTag.markerWrite,
       UnitTag.resolved, UnitTag.cycleWrite, UnitTag.stampWrite] :=
  ⟨by decide, C9_unit_field_writes 3 1 false (by decide)⟩

/-! ### C6 -/

/-- C6 evaluation (code bug): the telemetry path crashes instead of
yielding "no frame".  On a 300-byte (undersized) buffer `get_messages`
raises `struct.error` from `struct.unpack` (the buffer does not cover byte
748), and on a failed connection to the feedback port the unguarded
`s.recv(1024)` raises a socket error that `listen_to_robot` propagates —
both contradict the claim that such failures yield a "no frame" result and
never raise. -/
theorem C6_telemetry_crash :
    get_messages (List.replicate 300 0) =
      Except.error TelemetryErr.structError ∧
    listen_to_robot false (List.replicate 1024 0) =
      Except.error TelemetryErr.socketNotConnected := by
  exact ⟨by rfl, by rfl⟩

/-! ### C5 -/

/-- Synthetic telemetry buffer: the given 64-bit patterns encoded
big-endian at the documented offsets ([12,60) target joints, [252,300)
actual joints, [540,588) forces, [588,636) pose, [740,748) controller
time), with arbitrary filler bytes everywhere else. -/
def synthBuffer (j0 j1 j2 j3 j4 : List ℕ) (t a f p : List ℕ) (c : ℕ) :
    List ℕ :=
  j0 ++ t.flatMap encodeBE64 ++ j1 ++ a.flatMap encodeBE64 ++ j2 ++
    f.flatMap encodeBE64 ++ p.flatMap encodeBE64 ++ j3 ++ encodeBE64 c ++ j4

theorem encodeBE64_length (w : ℕ) : (encodeBE64 w).length = 8 := rfl

/-- Big-endian decode inverts big-endian encode on 64-bit patterns. -/
theorem decodeBE_encodeBE64 (w : ℕ) (h : w < 2 ^ 64) :
    decodeBE (encodeBE64 w) = w := by
  simp [decodeBE, encodeBE64, List.foldl]
  omega

theorem flatMap_encodeBE64_length (l : List ℕ) :
    (l.flatMap encodeBE64).length = 8 * l.length := by
  induction l with
  | nil => rfl
  | cons w l ih => simp [List.flatMap_cons, ih, encodeBE64_length]; ring

/-- Slicing an appended buffer at the exact boundaries of its middle
segment recovers the segment. -/
theorem pySlice_at (A B C : List ℕ) (a n : ℕ) (hA : A.length = a)
    (hB : B.length = n) :
    pySlice (A ++ (B ++ C)) a (a + n) = B := by
  unfold pySlice
  rw [Nat.add_sub_cancel_left, List.drop_left' hA, List.take_left' hB]

/-- `struct.unpack` of the concatenated encodings of `l.length` 64-bit
patterns recovers the patterns. -/
theorem unpackDoubles_encode (l : List ℕ) (hw : ∀ w ∈ l, w < 2 ^ 64) :
    unpackDoubles l.length (l.flatMap encodeBE64) = Except.ok l := by
  induction l with
  | nil => rfl
  | cons w l ih =>
    have hrest : (l.flatMap encodeBE64).length = 8 * l.length :=
      flatMap_encodeBE64_length l
    have ihm : ((List.range l.length).map fun i =>
        decodeBE (((l.flatMap encodeBE64).drop (8 * i)).take 8)) = l := by
      have := ih fun x hx => hw x (List.mem_cons_of_mem w hx)
      unfold unpackDoubles at this
      rw [if_pos hrest] at this
      exact Except.ok.inj this
    unfold unpackDoubles
    rw [if_pos (by simp [List.flatMap_cons, encodeBE64_length, hrest,
      Nat.mul_succ]; ring)]
    simp only [List.length_cons]
    rw [List.range_succ_eq_map, List.map_cons, List.map_map]
    simp only [Except.ok.injEq, List.cons.injEq, List.flatMap_cons]
    refine ⟨?_, ?_⟩
    · rw [Nat.mul_zero, List.drop_zero,
        List.take_left' (encodeBE64_length w)]
      exact decodeBE_encodeBE64 w (hw w (List.mem_cons_self w l))
    · conv_rhs => rw [← ihm]
      apply List.map_congr_left
      intro i _
      simp only [Function.comp_apply]
      congr 2


/-- C5: on every 1024-byte buffer carrying synthetically encoded big-endian
64-bit patterns at the documented offsets — target joints at [12,60),
actual joints at [252,300), forces at [540,588), pose at [588,636),
controller time at [740,748) — and arbitrary filler bytes elsewhere, the
decoder returns exactly the expected fields: the target and actual joint
patterns with the radians-to-degrees conversion applied, and the forces,
pose and controller-time patterns unconverted. -/
theorem C5_telemetry_decode (j0 j1 j2 j3 j4 t a f p : List ℕ) (c : ℕ)
    (hj0 : j0.length = 12) (hj1 : j1.length = 192) (hj2 : j2.length = 240)
    (hj3 : j3.length = 104) (hj4 : j4.length = 276)
    (ht : t.length = 6) (ha : a.length = 6) (hf : f.length = 6)
    (hp : p.length = 6)
    (htw : ∀ w ∈ t, w < 2 ^ 64) (haw : ∀ w ∈ a, w < 2 ^ 64)
    (hfw : ∀ w ∈ f, w < 2 ^ 64) (hpw : ∀ w ∈ p, w < 2 ^ 64)
    (hc : c < 2 ^ 64) :
    (synthBuffer j0 j1 j2 j3 j4 t a f p c).length = 1024 ∧
    get_messages (synthBuffer j0 j1 j2 j3 j4 t a f p c) = Except.ok
      { target_joints := t.map fun w => FVal.degrees (FVal.ofBits w)
        actual_joints := a.map fun w => FVal.degrees (FVal.ofBits w)
        forces := f.map FVal.ofBits
        pose := p.map FVal.ofBits
        time := [FVal.ofBits c] } := by
  have hlt : (t.flatMap encodeBE64).length = 48 := by
    rw [flatMap_encodeBE64_length, ht]
  have hla : (a.flatMap encodeBE64).length = 48 := by
    rw [flatMap_encodeBE64_length, ha]
  have hlf : (f.flatMap encodeBE64).length = 48 := by
    rw [flatMap_encodeBE64_length, hf]
  have hlp : (p.flatMap encodeBE64).length = 48 := by
    rw [flatMap_encodeBE64_length, hp]
  refine ⟨?_, ?_⟩
  · simp only [synthBuffer, List.length_append, hj0, hj1, hj2, hj3, hj4,
      hlt, hla, hlf, hlp, encodeBE64_length]
  · have sT : pySlice (synthBuffer j0 j1 j2 j3 j4 t a f p c) 12 60 =
        t.flatMap encodeBE64 := by
      have hshape : synthBuffer j0 j1 j2 j3 j4 t a f p c =
          j0 ++ (t.flatMap encodeBE64 ++
            (j1 ++ (a.flatMap encodeBE64 ++ (j2 ++ (f.flatMap encodeBE64 ++
              (p.flatMap encodeBE64 ++ (j3 ++ (encodeBE64 c ++ j4)))))))) := by
        simp [synthBuffer, List.append_assoc]
      rw [hshape]
      exact pySlice_at _ _ _ 12 48 hj0 hlt
    have sA : pySlice (synthBuffer j0 j1 j2 j3 j4 t a f p c) 252 300 =
        a.flatMap encodeBE64 := by
      have hshape : synthBuffer j0 j1 j2 j3 j4 t a f p c =
          (j0 ++ t.flatMap encodeBE64 ++ j1) ++ (a.flatMap encodeBE64 ++
            (j2 ++ (f.flatMap encodeBE64 ++ (p.flatMap encodeBE64 ++
              (j3 ++ (encodeBE64 c ++ j4)))))) := by
        simp [synthBuffer, List.append_assoc]
      rw [hshape]
      exact pySlice_at _ _ _ 252 48
        (by simp [List.length_append, hj0, hj1, hlt]) hla
    have sF : pySlice (synthBuffer j0 j1 j2 j3 j4 t a f p c) 540 588 =
        f.flatMap encodeBE64 := by
      have hshape : synthBuffer j0 j1 j2 j3 j4 t a f p c =
          (j0 ++ t.flatMap encodeBE64 ++ j1 ++ a.flatMap encodeBE64 ++ j2) ++
            (f.flatMap encodeBE64 ++ (p.flatMap encodeBE64 ++
              (j3 ++ (encodeBE64 c ++ j4)))) := by
        simp [synthBuffer, List.append_assoc]
      rw [hshape]
      exact pySlice_at _ _ _ 540 48
        (by simp [List.length_append, hj0, hj1, hj2, hlt, hla]) hlf
    have sP : pySlice (synthBuffer j0 j1 j2 j3 j4 t a f p c) 588 636 =
        p.flatMap encodeBE64 := by
      have hshape : synthBuffer j0 j1 j2 j3 j4 t a f p c =
          (j0 ++ t.flatMap encodeBE64 ++ j1 ++ a.flatMap encodeBE64 ++ j2 ++
            f.flatMap encodeBE64) ++ (p.flatMap encodeBE64 ++
              (j3 ++ (encodeBE64 c ++ j4))) := by
        simp [synthBuffer, List.append_assoc]
      rw [hshape]
      exact pySlice_at _ _ _ 588 48
        (by simp [List.length_append, hj0, hj1, hj2, hlt, hla, hlf]) hlp
    have sC : pySlice (synthBuffer j0 j1 j2 j3 j4 t a f p c) 740 748 =
        encodeBE64 c := by
      have hshape : synthBuffer j0 j1 j2 j3 j4 t a f p c =
          (j0 ++ t.flatMap encodeBE64 ++ j1 ++ a.flatMap encodeBE64 ++ j2 ++
            f.flatMap encodeBE64 ++ p.flatMap encodeBE64 ++ j3) ++
            (encodeBE64 c ++ j4) := by
        simp [synthBuffer, List.append_assoc]
      rw [hshape]
      exact pySlice_at _ _ _ 740 8
        (by simp [List.length_append, hj0, hj1, hj2, hj3, hlt, hla, hlf, hlp])
        (encodeBE64_length c)
    have uT : unpackDoubles 6 (t.flatMap encodeBE64) = Except.ok t := by
      rw [← ht]; exact unpackDoubles_encode t htw
    have uA : unpackDoubles 6 (a.flatMap encodeBE64) = Except.ok a := by
      rw [← ha]; exact unpackDoubles_encode a haw
    have uF : unpackDoubles 6 (f.flatMap encodeBE64) = Except.ok f := by
      rw [← hf]; exact unpackDoubles_encode f hfw
    have uP : unpackDoubles 6 (p.flatMap encodeBE64) = Except.ok p := by
      rw [← hp]; exact unpackDoubles_encode p hpw
    have uC : unpackDoubles 1 (encodeBE64 c) = Except.ok [c] := by
      have := unpackDoubles_encode [c] (by simpa using hc)
      simpa using this
    simp only [get_messages]
    rw [sT, sA, sF, sP, sC, uT, uA, uF, uP, uC]
    simp [Bind.bind, Except.bind]

set_option maxRecDepth 8000 in
/-- Witness for C5: the decode round trip on a concrete synthetic buffer
(zero filler, joint patterns 0..11, forces 12..17, pose 18..23, time 7),
with every hypothesis discharged by evaluation. -/
theorem C5_telemetry_decode_witness :
    ((List.replicate 12 0 : List ℕ).length = 12 ∧
     (List.replicate 192 0 : List ℕ).length = 192 ∧
     (List.replicate 240 0 : List ℕ).length = 240 ∧
     (List.replicate 104 0 : List ℕ).length = 104 ∧
     (List.replicate 276 0 : List ℕ).length = 276 ∧
     (∀ w ∈ [0, 1, 2, 3, 4, 5], w < 2 ^ 64) ∧
     (∀ w ∈ [6, 7, 8, 9, 10, 11], w < 2 ^ 64) ∧
     (∀ w ∈ [12, 13, 14, 15, 16, 17], w < 2 ^ 64) ∧
     (∀ w ∈ [18, 19, 20, 21, 22, 23], w < 2 ^ 64) ∧ 7 < 2 ^ 64) ∧
    ((synthBuffer (List.replicate 12 0) (List.replicate 192 0)
        (List.replicate 240 0) (List.replicate 104 0) (List.replicate 276 0)
        [0, 1, 2, 3, 4, 5] [6, 7, 8, 9, 10, 11] [12, 13, 14, 15, 16, 17]
        [18, 19, 20, 21, 22, 23] 7).length = 1024 ∧
      get_messages (synthBuffer (List.replicate 12 0) (List.replicate 192 0)
        (List.replicate 240 0) (List.replicate 104 0) (List.replicate 276 0)
        [0, 1, 2, 3, 4, 5] [6, 7, 8, 9, 10, 11] [12, 13, 14, 15, 16, 17]
        [18, 19, 20, 21, 22, 23] 7) = Except.ok
        { target_joints := [0, 1, 2, 3, 4, 5].map fun w =>
            FVal.degrees (FVal.ofBits w)
          actual_joints := [6, 7, 8, 9, 10, 11].map fun w =>
            FVal.degrees (FVal.ofBits w)
          forces := [12, 13, 14, 15, 16, 17].map FVal.ofBits
          pose := [18, 19, 20, 21, 22, 23].map FVal.ofBits
          time := [FVal.ofBits 7] }) :=
  ⟨⟨rfl, rfl, rfl, rfl, rfl, by decide, by decide, by decide, by decide,
    by decide⟩,
   C5_telemetry_decode (List.replicate 12 0) (List.replicate 192 0)
     (List.replicate 240 0) (List.replicate 104 0) (List.replicate 276 0)
     [0, 1, 2, 3, 4, 5] [6, 7, 8, 9, 10, 11] [12, 13, 14, 15, 16, 17]
     [18, 19, 20, 21, 22, 23] 7 rfl rfl rfl rfl rfl rfl rfl rfl rfl
     (by decide) (by decide) (by decide) (by decide) (by decide)⟩

/-! ### C10 -/

/-- `k`-fold application of the in-place z-calibration translation
`plane.Translate(rg.Vector3d(0, 0, z))`. -/
def translateZIter (z : ℚ) : ℕ → Plane → Plane
  | 0, p => p
  | k + 1, p => Plane.translate (Vec.world 0 0 z) (translateZIter z k p)

theorem translateZIter_translate (z : ℚ) (k : ℕ) (p : Plane) :
    translateZIter z k (Plane.translate (Vec.world 0 0 z) p) =
      translateZIter z (k + 1) p := by
  induction k with
  | zero => rfl
  | succ k ihk => rw [translateZIter, ihk]; rfl

/-- Store invariant of the fabrication loop (non-dry-run): a successful run
over an instruction list translates the picking-plane object `j` once per
instruction referencing it and the placing-plane object `q` once per
instruction referencing it, in place. -/
theorem fabLoop_store (a : ClayArgs) (hdry : a.dry_run = false)
    (instrs : List Instr) :
    ∀ (pick place : List Plane) (st : List Plane × List Plane)
      (cmds : List Cmd),
      (∀ ins ∈ instrs, ins.pickIdx < pick.length ∧
        ins.placeIdx < place.length) →
      fabLoop a instrs (pick, place) = (st, cmds, none) →
      (∀ j, st.1[j]? = (pick[j]?).map
        (translateZIter a.z_calib_picking
          (instrs.countP fun ins => ins.pickIdx == j))) ∧
      (∀ q, st.2[q]? = (place[q]?).map
        (translateZIter a.z_calib_placing
          (instrs.countP fun ins => ins.placeIdx == q))) := by
  induction instrs with
  | nil =>
    intro pick place st cmds _ h
    simp only [fabLoop] at h
    cases h
    constructor
    · intro j; cases hpj : pick[j]? <;> simp [translateZIter, List.countP_nil]
    · intro q; cases hpq : place[q]? <;> simp [translateZIter, List.countP_nil]
  | cons ins rest ih =>
    intro pick place st cmds hb h
    have hpi := (hb ins (List.mem_cons_self ins rest)).1
    have hqi := (hb ins (List.mem_cons_self ins rest)).2
    simp only [fabLoop, hdry, Bool.false_eq_true, if_false] at h
    cases hsm : _shooting_moves
        (Plane.translate (Vec.world 0 0 a.z_calib_placing)
          (place.getD ins.placeIdx (Plane.base 0)))
        a.entry_exit_offset ins.conf a.vertical_offset_bool (1 / 2) with
    | error e =>
      rw [hsm] at h
      have := congrArg (fun x => x.2.2) h
      simp at this
    | ok shoot =>
      rw [hsm] at h
      rcases hrec : fabLoop a rest
          (pick.set ins.pickIdx
            (Plane.translate (Vec.world 0 0 a.z_calib_picking)
              (pick.getD ins.pickIdx (Plane.base 0))),
           place.set ins.placeIdx
            (Plane.translate (Vec.world 0 0 a.z_calib_placing)
              (place.getD ins.placeIdx (Plane.base 0)))) with ⟨st2, cmds2, err2⟩
      rw [hrec] at h
      cases h
      have hb' : ∀ i ∈ rest,
          i.pickIdx < (pick.set ins.pickIdx
            (Plane.translate (Vec.world 0 0 a.z_calib_picking)
              (pick.getD ins.pickIdx (Plane.base 0)))).length ∧
          i.placeIdx < (place.set ins.placeIdx
            (Plane.translate (Vec.world 0 0 a.z_calib_placing)
              (place.getD ins.placeIdx (Plane.base 0)))).length := by
        intro i hi
        rw [List.length_set, List.length_set]
        exact hb i (List.mem_cons_of_mem ins hi)
      obtain ⟨ih1, ih2⟩ := ih _ _ _ _ hb' hrec
      constructor
      · intro j
        rw [ih1 j, List.getElem?_set]
        by_cases hj : ins.pickIdx = j
        · rw [if_pos hj, if_pos (hj ▸ hpi)]
          have hjlen : j < pick.length := hj ▸ hpi
          rw [List.getD_eq_getElem?_getD, List.getElem?_eq_getElem hjlen]
          rw [List.countP_cons_of_pos _ _ (by simpa using hj)]
          simp only [Option.getD_some, Option.map_some']
          rw [hj, translateZIter_translate]
          simp [List.getElem?_eq_getElem hjlen]
        · rw [if_neg hj,
            List.countP_cons_of_neg _ _ (by simpa using hj)]
      · intro q
        rw [ih2 q, List.getElem?_set]
        by_cases hq : ins.placeIdx = q
        · rw [if_pos hq, if_pos (hq ▸ hqi)]
          have hqlen : q < place.length := hq ▸ hqi
          rw [List.getD_eq_getElem?_getD, List.getElem?_eq_getElem hqlen]
          rw [List.countP_cons_of_pos _ _ (by simpa using hq)]
          simp only [Option.getD_some, Option.map_some']
          rw [hq, translateZIter_translate]
          simp [List.getElem?_eq_getElem hqlen]
        · rw [if_neg hq,
            List.countP_cons_of_neg _ _ (by simpa using hq)]

/-- A successful instruction-build step produces the wrap-around picking
reference and the running placing index, and requires a non-empty picking
list. -/
theorem build_instr_spec (pc : PushConf) (m i : ℕ) (ins : Instr)
    (h : build_instr pc m i = some ins) :
    ins.pickIdx = i % m ∧ ins.placeIdx = i ∧ m ≠ 0 := by
  unfold build_instr at h
  by_cases hm : m = 0
  · rw [if_pos hm] at h
    simp at h
  · rw [if_neg hm] at h
    cases hconf : plane_push_conf pc i with
    | none => rw [hconf] at h; simp at h
    | some conf =>
      rw [hconf] at h
      simp only [Bind.bind, Option.bind, Option.some.injEq] at h
      subst h
      exact ⟨rfl, rfl, hm⟩

/-- Projections of a successfully built instruction list. -/
theorem build_instructions_spec (pc : PushConf) (m : ℕ) :
    ∀ (L : List ℕ) (instrs : List Instr),
      L.mapM (build_instr pc m) = some instrs →
      instrs.map (fun ins => ins.pickIdx) = L.map (· % m) ∧
      instrs.map (fun ins => ins.placeIdx) = L ∧
      (instrs ≠ [] → m ≠ 0) := by
  intro L
  induction L with
  | nil =>
    intro instrs h
    simp only [List.mapM_nil, pure, Option.some.injEq] at h
    subst h
    simp
  | cons i L ihL =>
    intro instrs h
    rw [List.mapM_cons] at h
    cases hfi : build_instr pc m i with
    | none => rw [hfi] at h; simp at h
    | some b =>
      rw [hfi] at h
      cases hrest : L.mapM (build_instr pc m) with
      | none => rw [hrest] at h; simp at h
      | some bs =>
        rw [hrest] at h
        simp only [Bind.bind, Option.bind, pure, Option.some.injEq] at h
        subst h
        obtain ⟨hb1, hb2, hb3⟩ := build_instr_spec pc m i b hfi
        obtain ⟨ih1, ih2, _⟩ := ihL bs hrest
        exact ⟨by simp [List.map_cons, ih1, hb1],
          by simp [List.map_cons, ih2, hb2], fun _ => hb3⟩

/-- C10: a successful non-dry run of `clay_shooting` mutates the caller's
plane objects in place: every placing plane `q` ends translated by
`(0, 0, z_calib_placing)` exactly once, and every picking plane `j` ends
translated by `(0, 0, z_calib_picking)` once per instruction that used it
(instruction `i` uses picking plane `i mod len(picking_planes)`), the input
lists never being copied before calibration. -/
theorem C10_calibration_mutates_planes (a : ClayArgs)
    (st : List Plane × List Plane) (cmds : List Cmd)
    (hdry : a.dry_run = false)
    (hrun : clay_shooting a = (st, cmds, none)) :
    (∀ q, q < a.placing_planes.length →
      st.2[q]? = (a.placing_planes[q]?).map
        (fun p => Plane.translate (Vec.world 0 0 a.z_calib_placing) p)) ∧
    (∀ j, st.1[j]? = (a.picking_planes[j]?).map
      (translateZIter a.z_calib_picking
        (((List.range a.placing_planes.length).filter
          (fun i => i % a.picking_planes.length == j)).length))) := by
  unfold clay_shooting at hrun
  split at hrun
  · split at hrun
    · exact absurd (congrArg (fun x => x.2.2) hrun) (by simp)
    · rename_i instrs heq
      rcases hfl : fabLoop a instrs (a.picking_planes, a.placing_planes)
        with ⟨st0, cmds0, err0⟩
      rw [hfl] at hrun
      cases hrun
      rw [build_instructions] at heq
      obtain ⟨hm1, hm2, hm3⟩ := build_instructions_spec a.push_conf
        a.picking_planes.length (List.range a.placing_planes.length)
        instrs heq
      have hbounds : ∀ ins ∈ instrs,
          ins.pickIdx < a.picking_planes.length ∧
          ins.placeIdx < a.placing_planes.length := by
        intro ins hins
        have hmne : a.picking_planes.length ≠ 0 := by
          refine hm3 ?_
          intro hnil
          rw [hnil] at hins
          exact List.not_mem_nil ins hins
        constructor
        · have hmem : ins.pickIdx ∈ instrs.map fun ins => ins.pickIdx :=
            List.mem_map_of_mem _ hins
          rw [hm1] at hmem
          obtain ⟨i, _, hEq⟩ := List.mem_map.mp hmem
          rw [← hEq]
          exact Nat.mod_lt _ (Nat.pos_of_ne_zero hmne)
        · have hmem : ins.placeIdx ∈ instrs.map fun ins => ins.placeIdx :=
            List.mem_map_of_mem _ hins
          rw [hm2] at hmem
          exact List.mem_range.mp hmem
      obtain ⟨hst1, hst2⟩ := fabLoop_store a hdry instrs
        a.picking_planes a.placing_planes _ _ hbounds hfl
      constructor
      · intro q hq
        have hcnt : (instrs.countP fun ins => ins.placeIdx == q) = 1 := by
          have h1 : (instrs.countP fun ins => ins.placeIdx == q) =
              List.countP (fun x => x == q)
                (instrs.map fun ins => ins.placeIdx) := by
            rw [List.countP_map]
            rfl
          rw [h1, hm2, ← List.count_eq_countP]
          exact List.count_eq_one_of_mem (List.nodup_range _)
            (List.mem_range.mpr hq)
        rw [hst2 q, hcnt]
        cases a.placing_planes[q]? <;> simp [translateZIter]
      · intro j
        have hcnt : (instrs.countP fun ins => ins.pickIdx == j) =
            ((List.range a.placing_planes.length).filter
              (fun i => i % a.picking_planes.length == j)).length := by
          have h1 : (instrs.countP fun ins => ins.pickIdx == j) =
              List.countP (fun x => x == j)
                (instrs.map fun ins => ins.pickIdx) := by
            rw [List.countP_map]
            rfl
          rw [h1, hm1, List.countP_map, List.countP_eq_length_filter]
          rfl
        rw [hst1 j, hcnt]
  · exact absurd (congrArg (fun x => x.2.2) hrun) (by simp)

/-- Concrete `clay_shooting` arguments for the C10 witness: two picking
planes, three placing planes, default push configuration, non-dry run. -/
def c10Args : ClayArgs :=
  { picking_planes := [Plane.base 0, Plane.base 1]
    placing_planes := [Plane.base 10, Plane.base 11, Plane.base 12]
    safe_travel_planes := [Plane.base 20]
    dry_run := false
    push_conf := defaultPushConf
    tool_rotation := 0
    picking_rotation := 0
    tool_height_correction := 0
    z_calib_picking := 2
    z_calib_placing := 3
    entry_exit_offset := -40
    vertical_offset_bool := false
    placing_index := 0 }

/-- Witness for C10: the in-place calibration effect at concrete arguments
(the run succeeds, each placing plane is translated once, picking plane 0 —
used by instructions 0 and 2 — twice, picking plane 1 once). -/
theorem C10_calibration_mutates_planes_witness :
    c10Args.dry_run = false ∧
    clay_shooting c10Args =
      ((clay_shooting c10Args).1, (clay_shooting c10Args).2.1, none) ∧
    ((∀ q, q < c10Args.placing_planes.length →
      (clay_shooting c10Args).1.2[q]? = (c10Args.placing_planes[q]?).map
        (fun p => Plane.translate (Vec.world 0 0 c10Args.z_calib_placing) p)) ∧
    (∀ j, (clay_shooting c10Args).1.1[j]? =
      (c10Args.picking_planes[j]?).map
        (translateZIter c10Args.z_calib_picking
          (((List.range c10Args.placing_planes.length).filter
            (fun i => i % c10Args.picking_planes.length == j)).length)))) :=
  ⟨rfl, by rfl,
   C10_calibration_mutates_planes c10Args (clay_shooting c10Args).1
     (clay_shooting c10Args).2.1 rfl (by rfl)⟩

end RCF
